import Mathlib

/-!
# Verification of `split_table_batched_embedding_bags.py`

Shallow embedding of the request/input generator of the benchmark workload
`train/compute/python/workloads/pytorch/split_table_batched_embedding_bags.py`.

Modelling conventions:
* Randomness is explicit: a `Rng` record carries the streams consumed by
  `torch.randint` (uniform draws), `np.random.zipf` (Zipfian draws) and
  `torch.randn` (weight draws).  Each call site consumes the stream it needs.
* `float` skew parameters (`alpha`) are modelled as rationals: the thresholds
  `0`, `0.5` and `1.0` compared against in the source are exactly
  representable, so the branch structure is preserved.
* `float32` weight values are modelled as rationals; no claim inspects the
  numeric value of a weight, only presence and length.
* Tensors are lists; `torch.cat` is `List.flatten`; `np.cumsum` is `cumsum`.
-/

/-- Streams of random draws consumed by `generate_requests`.
`uniform i` models the `i`-th draw of `torch.randint` (an arbitrary natural,
reduced by the embedding at the call site), `zipf i` models the `i`-th draw of
`np.random.zipf` (values `≥ 1`; reduced `% E` at the call site so positivity is
irrelevant to the claims), `randn i` models the `i`-th `torch.randn` draw. -/
structure Rng where
  uniform : Nat → Nat
  zipf : Nat → Nat
  randn : Nat → ℚ

/-- A fixed rng used for concrete evaluations. -/
def constRng : Rng := ⟨fun _ => 0, fun _ => 1, fun _ => 0⟩

/-- `np.cumsum` with a running accumulator: `cumsumFrom acc xs` is the list of
partial sums of `xs`, each shifted by `acc`. -/
def cumsumFrom (acc : Nat) : List Nat → List Nat
  | [] => []
  | x :: xs => (acc + x) :: cumsumFrom (acc + x) xs

/-- `np.cumsum`: running partial sums, same length as the input. -/
def cumsum (xs : List Nat) : List Nat := cumsumFrom 0 xs

/-- The indices produced by `generate_requests` (source lines 113-129):
* `alpha == 0`: `torch.arange(0, B*L) % L`;
* `alpha <= 0.5`: `torch.arange(0, B*L) % E`;
* `alpha <= 1.0`: `torch.randint(low=0, high=E, size=(B*L,))`, modelled as the
  uniform stream reduced `% E` (which is exactly the range `[0, E)` of
  `randint`);
* otherwise: `np.random.zipf(a=alpha, size=B*L) % E`. -/
def sampleIndices (rng : Rng) (B L E : Nat) (alpha : ℚ) : List Nat :=
  let indices_size := B * L
  if alpha = 0 then
    (List.range indices_size).map (fun i => i % L)
  else if alpha ≤ 1/2 then
    (List.range indices_size).map (fun i => i % E)
  else if alpha ≤ 1 then
    (List.range indices_size).map (fun i => rng.uniform i % E)
  else
    (List.range indices_size).map (fun i => rng.zipf i % E)

/-- The offsets produced by `generate_requests` (source lines 131-138):
`lengths = np.ones(B) * L`; if `offset_start == 0` the result is
`cumsum([0] + lengths)`, otherwise `offset_start + cumsum(lengths)`. -/
def sampleOffsets (B L offset_start : Nat) : List Nat :=
  let lengths := List.replicate B L
  if offset_start = 0 then
    cumsum (0 :: lengths)
  else
    (cumsum lengths).map (fun x => offset_start + x)

/-- The optional per-sample weights of `generate_requests` (source lines
140-143): `torch.randn(B*L)` when `weighted`, else `None`. -/
def sampleWeights (rng : Rng) (B L : Nat) (weighted : Bool) : Option (List ℚ) :=
  if weighted then some ((List.range (B * L)).map rng.randn) else none

/-- `generate_requests(B, L, E, offset_start, alpha, weighted)`
(source lines 103-148): returns `(indices, offsets, weights)`. -/
def generate_requests (rng : Rng) (B L E offset_start : Nat) (alpha : ℚ)
    (weighted : Bool) : List Nat × List Nat × Option (List ℚ) :=
  (sampleIndices rng B L E alpha, sampleOffsets B L offset_start,
    sampleWeights rng B L weighted)

/-- The generation-mode loop of
`SplitTableBatchedEmbeddingInputDataGenerator.get_data` (source lines
202-216): iterate over the tables (each a pair `(pooling_factor_i, rows_i)`),
calling `generate_requests` with the running `offset_start`, which is advanced
to the last element of the offsets just produced (`offsets[-1].item()`).
`rngs i` is the fresh randomness consumed by the call for table `i`; `i` is the
table counter, `s` the running `offset_start`.  Returns the per-table lists
`(indices_list, offsets_list, per_sample_weights_list)` accumulated by the
loop. -/
def genTables (rngs : Nat → Rng) (B : Nat) (alpha : ℚ) (weighted : Bool) :
    Nat → Nat → List (Nat × Nat) →
    List (List Nat) × List (List Nat) × List (List ℚ)
  | _, _, [] => ([], [], [])
  | i, s, (L, E) :: rest =>
    let r := generate_requests (rngs i) B L E s alpha weighted
    let offset_start := r.2.1.getLastD 0
    let acc := genTables rngs B alpha weighted (i + 1) offset_start rest
    (r.1 :: acc.1, r.2.1 :: acc.2.1,
      if weighted then (r.2.2.getD []) :: acc.2.2 else acc.2.2)

/-- The per-call configuration consumed by `get_data` (source lines 155-165 and
181-187): table counts and shapes, plus the optional axis-4 override file
paths (`indices_tensor`/`offsets_tensor`/`weights_tensor`). -/
structure GetDataConfig where
  num_tables : Nat
  rows : List Nat
  pooling_factors : List Nat
  batch_size : Nat
  weighted : Bool
  indices_tensor : Option String
  offsets_tensor : Option String
  weights_tensor : Option String

/-- The environment variables read by `get_data` (source lines 171, 189-192).
`split_embedding_distribution` is modelled after `float()` parsing (a rational
skew value); the other three are file paths. -/
structure Env where
  split_embedding_distribution : Option ℚ
  split_embedding_indices : Option String
  split_embedding_offsets : Option String
  split_embedding_weights : Option String

/-- Python truthiness of an optional path (`if weights_file:`): present and
non-empty. -/
def pathTruthy : Option String → Bool
  | some s => !(s == "")
  | none => false

/-- Resolution of the override sources (source lines 178-192): if the axis-4
config carries both `indices_tensor` and `offsets_tensor`, those are used and
the weights path is taken from the config only when `weighted`; otherwise all
three fall back to the environment variables, the weights one only when
`weighted`.  Returns `(indices_file, offsets_file, weights_file)`. -/
def resolveFiles (cfg : GetDataConfig) (env : Env) :
    Option String × Option String × Option String :=
  if cfg.indices_tensor.isSome && cfg.offsets_tensor.isSome then
    (cfg.indices_tensor, cfg.offsets_tensor,
      if cfg.weighted then cfg.weights_tensor else none)
  else
    (env.split_embedding_indices, env.split_embedding_offsets,
      if cfg.weighted then env.split_embedding_weights else none)

/-- The value returned by `get_data`: the positional args list
`[indices, offsets, per_sample_weights]` (the kwargs dict is always empty and
omitted). -/
structure Batch where
  indices : List Nat
  offsets : List Nat
  weights : Option (List ℚ)
deriving DecidableEq

/-- The final `return` of `get_data` (source lines 233-240): the tensors are
moved to the target device (identity in this model) and, when `weighted`,
`per_sample_weights_tensor.to(target_device)` is an attribute access on the
weights tensor — if that tensor is `None` this raises `AttributeError`. -/
def finalizeBatch (weighted : Bool) (indices offsets : List Nat)
    (weights : Option (List ℚ)) : Except String Batch :=
  if weighted then
    match weights with
    | some w => Except.ok ⟨indices, offsets, some w⟩
    | none => Except.error "AttributeError: NoneType has no attribute to"
  else Except.ok ⟨indices, offsets, none⟩

/-- `SplitTableBatchedEmbeddingInputDataGenerator.get_data` (source lines
152-240).  `loadIdx`/`loadOff`/`loadW` model `torch.load` on the three kinds of
files; `rngs` is the randomness available to generation mode.  When both an
indices file and an offsets file resolve, the tensors are loaded (weights only
when its path is truthy); otherwise the generation loop `genTables` runs over
`num_tables` tables taken from `pooling_factors`/`rows` and the per-table
tensors are concatenated (`torch.cat`, i.e. `List.flatten`).  The skew is
`split_embedding_distribution`, defaulting to `1`. -/
def get_data (loadIdx loadOff : String → List Nat) (loadW : String → List ℚ)
    (rngs : Nat → Rng) (cfg : GetDataConfig) (env : Env) :
    Except String Batch :=
  let alpha := env.split_embedding_distribution.getD 1
  let files := resolveFiles cfg env
  if files.1.isSome && files.2.1.isSome then
    let indices_tensor := loadIdx (files.1.getD "")
    let offsets_tensor := loadOff (files.2.1.getD "")
    let per_sample_weights_tensor :=
      if pathTruthy files.2.2 then some (loadW (files.2.2.getD "")) else none
    finalizeBatch cfg.weighted indices_tensor offsets_tensor
      per_sample_weights_tensor
  else
    let tables := (List.range cfg.num_tables).map
      (fun i => (cfg.pooling_factors.getD i 0, cfg.rows.getD i 0))
    let acc := genTables rngs cfg.batch_size alpha cfg.weighted 0 0 tables
    finalizeBatch cfg.weighted acc.1.flatten acc.2.1.flatten
      (if cfg.weighted then some acc.2.2.flatten else none)

/-- Modelled from the spec: an axis spec of an input-group `args` entry.  The
expansion machinery (`full_range`, `IterableList`, `TableProduct` from
`lib/generator`, not part of this source tree) interprets an axis as a single
literal value, a numeric range `\x7b"__range__": [start, stop, step]\x7d`, or an
explicit list `\x7b"__list__": [...]\x7d`. -/
inductive AxisSpec
  | lit : Nat → AxisSpec
  | rangeSpec : Nat → Nat → Nat → AxisSpec
  | listSpec : List Nat → AxisSpec

/-- Modelled from the spec: the concrete values an axis spec expands to.  A
range is inclusive with the given step (`full_range` is not part of this
source tree); the claims do not depend on the endpoint convention. -/
def axisValues : AxisSpec → List Nat
  | AxisSpec.lit v => [v]
  | AxisSpec.rangeSpec start stop step =>
      (List.range ((stop - start) / max step 1 + 1)).map
        (fun k => start + k * max step 1)
  | AxisSpec.listSpec vs => vs

/-- Modelled from the spec: `ListProduct`, the cartesian product of the axes
in declaration order (first axis outermost), as enumerated by the iterator. -/
def listProduct : List (List Nat) → List (List Nat)
  | [] => [[]]
  | xs :: rest => xs.flatMap (fun x => (listProduct rest).map (fun ys => x :: ys))

/-- The build-block parameters captured by
`SplitTableBatchedEmbeddingInputIterator.__init__` (source lines 54-58). -/
structure IterBuildArgs where
  num_tables : Nat
  rows : List Nat
  dim : List Nat
  weighted : Bool
  weights_precision : String

/-- One configuration yielded by the iterator (source lines 79-91): the build
parameters together with `batch_size = arg_config[0]` and
`pooling_factor = arg_config[1]`. -/
structure YieldedConfig where
  num_tables : Nat
  rows : List Nat
  dim : List Nat
  batch_size : Nat
  pooling_factor : Nat
  weighted : Bool
  weights_precision : String
deriving DecidableEq

/-- `SplitTableBatchedEmbeddingInputIterator._generator` (source lines 61-92)
as the finite sequence of `(identifier, config)` pairs it yields.  Each input
group's axes are expanded (`axisValues`) and their cartesian product
enumerated (`listProduct`); `config_id` counts positions within a group's
expansion.  `var_id` is initialised to `0` at line 63 and never incremented
anywhere in the loop, so every group is labelled with `var_id = 0`. -/
def iteratorItems (b : IterBuildArgs) (inputs : List (List AxisSpec)) :
    List (String × YieldedConfig) :=
  let var_id := 0
  inputs.flatMap (fun args =>
    (listProduct (args.map axisValues)).enum.map (fun p =>
      (toString var_id ++ "_" ++ toString p.1,
        ⟨b.num_tables, b.rows, b.dim, p.2.getD 0 0, p.2.getD 1 0,
          b.weighted, b.weights_precision⟩)))

/-- The compute-device enum selected by `SplitTableBatchedEmbeddingOp.build`
(source lines 278-283). -/
inductive ComputeDevice
  | CPU
  | CUDA
deriving DecidableEq

/-- Python's `s.startswith(pre)`, expressed over the character sequences. -/
def strStartsWith (s pre : String) : Bool := pre.data.isPrefixOf s.data

/-- Device-string dispatch of `build` (source lines 278-283):
`device.startswith("cpu")` selects CPU, `device.startswith("cuda")` selects
CUDA, anything else is unsupported. -/
def computeDeviceOf (device : String) : Option ComputeDevice :=
  if strStartsWith device "cpu" then some ComputeDevice.CPU
  else if strStartsWith device "cuda" then some ComputeDevice.CUDA
  else none

/-- The operator handle built by `build` (source lines 287-306): the
`SplitTableBatchedEmbeddingBagsCodegen` constructor arguments this wrapper
passes (per-table `(rows, dims, location, compute_device)` specs plus
optimizer, pooling mode and weights precision). -/
structure EmbeddingOpHandle where
  embedding_specs : List (Nat × Nat × Nat × ComputeDevice)
  optimizer : String
  pooling_mode : Nat
  weights_precision : String

/-- `SplitTableBatchedEmbeddingOp.build` (source lines 258-309) acting on the
wrapper state `self.op`.  `mkOp` is the external
`SplitTableBatchedEmbeddingBagsCodegen` constructor, supplied as an opaque
capability; the device check at lines 278-283 runs before any constructor
call, so on an unsupported device string the `ValueError` propagates and the
previous `self.op` is left in place.  Returns the new `self.op` and the
call's outcome. -/
def buildOp (mkOp : List (Nat × Nat × Nat × ComputeDevice) → String → Nat →
      String → EmbeddingOpHandle)
    (st : Option EmbeddingOpHandle) (device : String) (num_tables : Nat)
    (rows dims : List Nat) (location pooling : Nat)
    (weights_precision optimizer : String) :
    Option EmbeddingOpHandle × Except String Unit :=
  match computeDeviceOf device with
  | some cd =>
      (some (mkOp
        ((List.range num_tables).map
          (fun i => (rows.getD i 0, dims.getD i 0, location, cd)))
        optimizer pooling weights_precision), Except.ok ())
  | none => (st, Except.error ("Unknown compute device " ++ device))

/-- The table list iterated by the generation branch of `get_data`:
`(pooling_factors[i], rows[i])` for `i in range(num_tables)`. -/
def tableList (cfg : GetDataConfig) : List (Nat × Nat) :=
  (List.range cfg.num_tables).map
    (fun i => (cfg.pooling_factors.getD i 0, cfg.rows.getD i 0))

/-- Trivial tensor loader used in concrete evaluations (never consulted in
generation mode). -/
def loadNilNat : String → List Nat := fun _ => []

/-- Trivial weight loader used in concrete evaluations. -/
def loadNilQ : String → List ℚ := fun _ => []

/-- A constant rng family for concrete evaluations. -/
def rngsConst : Nat → Rng := fun _ => constRng

/-- Two-table generation-mode configuration: rows `[5, 7]`, pooling factors
`[2, 3]`, batch size `2`, unweighted, no override sources. -/
def cfgGen : GetDataConfig := ⟨2, [5, 7], [2, 3], 2, false, none, none, none⟩

/-- One-table generation-mode configuration whose pooling factor `2` exceeds
its row count `1`. -/
def cfgTinyRows : GetDataConfig := ⟨1, [1], [2], 1, false, none, none, none⟩

/-- Weighted two-table generation-mode configuration. -/
def cfgGenW : GetDataConfig := ⟨2, [5, 7], [2, 3], 2, true, none, none, none⟩

/-- Override-mode configuration: both axis-4 tensor paths present,
unweighted. -/
def cfgOverride : GetDataConfig :=
  ⟨1, [5], [2], 1, false, some "indices.pt", some "offsets.pt", none⟩

/-- Override-mode configuration with `weighted = True` but no weights path. -/
def cfgOverrideW : GetDataConfig :=
  ⟨1, [5], [2], 1, true, some "indices.pt", some "offsets.pt", none⟩

/-- Environment with `split_embedding_distribution = 0` and no tensor paths. -/
def envAlphaZero : Env := ⟨some 0, none, none, none⟩

/-- The batch produced by `get_data` on `cfgGenW` with `envAlphaZero` and the
constant rng family. -/
def batchGenW : Batch :=
  ⟨[0, 1, 0, 1, 0, 1, 2, 0, 1, 2], [0, 2, 4, 7, 10],
    some [0, 0, 0, 0, 0, 0, 0, 0, 0, 0]⟩

/-- Environment with nothing set. -/
def envNone : Env := ⟨none, none, none, none⟩

/-- A concrete stand-in for the external operator constructor, used in
concrete evaluations of `buildOp`. -/
def mkOpDemo (specs : List (Nat × Nat × Nat × ComputeDevice))
    (optimizer : String) (pooling : Nat) (weights_precision : String) :
    EmbeddingOpHandle :=
  ⟨specs, optimizer, pooling, weights_precision⟩

/-- Build-block arguments used in concrete evaluations of the iterator. -/
def iterDemoBuild : IterBuildArgs := ⟨1, [100], [64], false, "fp32"⟩

/-! ## Helper lemmas -/

lemma getD_map_range (f : Nat → Nat) {n i : Nat} (h : i < n) :
    ((List.range n).map f).getD i 0 = f i := by
  rw [List.getD_eq_getElem?_getD]
  simp [List.getElem?_map, List.getElem?_range h]

lemma length_sampleIndices (rng : Rng) (B L E : Nat) (alpha : ℚ) :
    (sampleIndices rng B L E alpha).length = B * L := by
  unfold sampleIndices
  split_ifs <;> simp

lemma sampleIndices_mem_lt (rng : Rng) {B L E : Nat} (alpha : ℚ)
    (hL : 1 ≤ L) (hE : 1 ≤ E) :
    ∀ j ∈ sampleIndices rng B L E alpha, j < if alpha = 0 then L else E := by
  intro j hj
  unfold sampleIndices at hj
  split_ifs at hj with h1 h2 h3 <;>
    simp only [List.mem_map, List.mem_range] at hj <;>
    obtain ⟨i, -, rfl⟩ := hj
  · rw [if_pos h1]; exact Nat.mod_lt _ (by omega)
  · rw [if_neg h1]; exact Nat.mod_lt _ (by omega)
  · rw [if_neg h1]; exact Nat.mod_lt _ (by omega)
  · rw [if_neg h1]; exact Nat.mod_lt _ (by omega)

lemma sampleIndices_deterministic (rng rng' : Rng) (B L E : Nat) {alpha : ℚ}
    (h : alpha ≤ 1 / 2) :
    sampleIndices rng B L E alpha = sampleIndices rng' B L E alpha := by
  unfold sampleIndices
  by_cases h0 : alpha = 0
  · rw [if_pos h0, if_pos h0]
  · rw [if_neg h0, if_neg h0, if_pos h, if_pos h]

lemma length_cumsumFrom : ∀ (xs : List Nat) (acc : Nat),
    (cumsumFrom acc xs).length = xs.length
  | [], _ => rfl
  | x :: xs, acc => by
    simp only [cumsumFrom, List.length_cons]
    rw [length_cumsumFrom xs (acc + x)]

lemma chain'_cumsumFrom : ∀ (xs : List Nat) (acc : Nat),
    List.Chain' (· ≤ ·) (acc :: cumsumFrom acc xs)
  | [], _ => List.chain'_singleton _
  | x :: xs, acc => by
    simp only [cumsumFrom]
    rw [List.chain'_cons]
    exact ⟨Nat.le_add_right acc x, chain'_cumsumFrom xs (acc + x)⟩

lemma getLastD_cumsumFrom : ∀ (xs : List Nat), xs ≠ [] → ∀ (acc d : Nat),
    (cumsumFrom acc xs).getLastD d = acc + xs.sum
  | [], h => absurd rfl h
  | x :: xs, _ => by
    intro acc d
    simp only [cumsumFrom, List.getLastD_cons]
    cases xs with
    | nil => simp [cumsumFrom]
    | cons y ys =>
      rw [getLastD_cumsumFrom (y :: ys) (by simp) (acc + x)]
      simp only [List.sum_cons]
      omega

lemma cumsumFrom_shift (s : Nat) : ∀ (xs : List Nat) (acc : Nat),
    cumsumFrom (s + acc) xs = (cumsumFrom acc xs).map (fun x => s + x)
  | [], _ => rfl
  | x :: xs, acc => by
    simp only [cumsumFrom, List.map_cons]
    rw [Nat.add_assoc, cumsumFrom_shift s xs (acc + x)]

lemma cumsumFrom_append : ∀ (xs ys : List Nat) (acc : Nat),
    cumsumFrom acc (xs ++ ys) =
      cumsumFrom acc xs ++ cumsumFrom ((cumsumFrom acc xs).getLastD acc) ys
  | [], ys, acc => rfl
  | x :: xs, ys, acc => by
    simp only [List.cons_append, cumsumFrom, List.getLastD_cons, List.append_eq]
    rw [cumsumFrom_append xs ys (acc + x)]

lemma sum_cumsumFrom_pos {xs : List Nat} (hx : ∀ x ∈ xs, 1 ≤ x) (h : xs ≠ []) :
    1 ≤ xs.sum := by
  cases xs with
  | nil => exact absurd rfl h
  | cons y ys =>
    have := hx y (List.mem_cons_self y ys)
    simp only [List.sum_cons]
    omega

lemma sampleOffsets_pos (B L : Nat) {s : Nat} (hs : s ≠ 0) :
    sampleOffsets B L s = cumsumFrom s (List.replicate B L) := by
  unfold sampleOffsets cumsum
  rw [if_neg hs]
  have := cumsumFrom_shift s (List.replicate B L) 0
  rw [Nat.add_zero] at this
  rw [this]

lemma sampleOffsets_zero (B L : Nat) :
    sampleOffsets B L 0 = 0 :: cumsumFrom 0 (List.replicate B L) := by
  unfold sampleOffsets cumsum
  rw [if_pos rfl]
  simp [cumsumFrom]

lemma length_sampleOffsets_pos (B L : Nat) {s : Nat} (hs : s ≠ 0) :
    (sampleOffsets B L s).length = B := by
  rw [sampleOffsets_pos B L hs, length_cumsumFrom, List.length_replicate]

lemma getLastD_sampleOffsets (B L : Nat) (s : Nat) (hB : 1 ≤ B) (d : Nat) :
    (sampleOffsets B L s).getLastD d = s + B * L := by
  have hne : List.replicate B L ≠ [] :=
    List.ne_nil_of_length_pos (by rw [List.length_replicate]; omega)
  by_cases hs : s = 0
  · subst hs
    rw [sampleOffsets_zero, List.getLastD_cons,
      getLastD_cumsumFrom _ hne 0 0, List.sum_replicate, smul_eq_mul]
  · rw [sampleOffsets_pos B L hs, getLastD_cumsumFrom _ hne s d,
      List.sum_replicate, smul_eq_mul]

lemma flatMap_replicate_sum (B : Nat) : ∀ (tables : List (Nat × Nat)),
    (tables.flatMap (fun p => List.replicate B p.1)).sum =
      B * (tables.map Prod.fst).sum
  | [] => by simp
  | p :: rest => by
    simp only [List.flatMap_cons, List.sum_append, List.map_cons, List.sum_cons,
      List.sum_replicate, smul_eq_mul]
    rw [flatMap_replicate_sum B rest, Nat.mul_add]

lemma flatMap_replicate_length (B : Nat) : ∀ (tables : List (Nat × Nat)),
    (tables.flatMap (fun p => List.replicate B p.1)).length = tables.length * B
  | [] => by simp
  | p :: rest => by
    simp only [List.flatMap_cons, List.length_append, List.length_replicate,
      List.length_cons]
    rw [flatMap_replicate_length B rest]
    ring

lemma genTables_offsets_flatten_pos (rngs : Nat → Rng) (B : Nat) (alpha : ℚ)
    (w : Bool) (hB : 1 ≤ B) : ∀ (tables : List (Nat × Nat)) (i s : Nat),
    1 ≤ s → (∀ p ∈ tables, 1 ≤ p.1) →
    (genTables rngs B alpha w i s tables).2.1.flatten =
      cumsumFrom s (tables.flatMap (fun p => List.replicate B p.1)) := by
  intro tables
  induction tables with
  | nil => intro i s _ _; simp [genTables, cumsumFrom]
  | cons p rest ih =>
    obtain ⟨L, E⟩ := p
    intro i s hs hT
    have hs0 : s ≠ 0 := by omega
    have hne : List.replicate B L ≠ [] :=
      List.ne_nil_of_length_pos (by rw [List.length_replicate]; omega)
    simp only [genTables, generate_requests, List.flatten_cons, List.flatMap_cons]
    rw [getLastD_sampleOffsets B L s hB 0]
    rw [cumsumFrom_append, getLastD_cumsumFrom _ hne s s, List.sum_replicate,
      smul_eq_mul]
    rw [sampleOffsets_pos B L hs0]
    rw [ih (i + 1) (s + B * L) (by omega)
      (fun q hq => hT q (List.mem_cons_of_mem _ hq))]

lemma genTables_offsets_flatten_zero (rngs : Nat → Rng) (B : Nat) (alpha : ℚ)
    (w : Bool) (hB : 1 ≤ B) (L E : Nat) (rest : List (Nat × Nat)) (hL : 1 ≤ L)
    (hT : ∀ p ∈ rest, 1 ≤ p.1) (i : Nat) :
    (genTables rngs B alpha w i 0 ((L, E) :: rest)).2.1.flatten =
      0 :: cumsumFrom 0
        (((L, E) :: rest).flatMap (fun p => List.replicate B p.1)) := by
  have hne : List.replicate B L ≠ [] :=
    List.ne_nil_of_length_pos (by rw [List.length_replicate]; omega)
  have hBL : 1 ≤ B * L := Nat.mul_le_mul hB hL
  simp only [genTables, generate_requests, List.flatten_cons, List.flatMap_cons]
  rw [getLastD_sampleOffsets B L 0 hB 0]
  rw [cumsumFrom_append, getLastD_cumsumFrom _ hne 0 0, List.sum_replicate,
    smul_eq_mul]
  rw [sampleOffsets_zero]
  rw [genTables_offsets_flatten_pos rngs B alpha w hB rest (i + 1) (0 + B * L)
    (by omega) hT]
  simp [List.cons_append]

lemma genTables_indices_flatten_length (rngs : Nat → Rng) (B : Nat) (alpha : ℚ)
    (w : Bool) : ∀ (tables : List (Nat × Nat)) (i s : Nat),
    (genTables rngs B alpha w i s tables).1.flatten.length =
      B * (tables.map Prod.fst).sum
  | [], _, _ => by simp [genTables]
  | (L, E) :: rest, i, s => by
    simp only [genTables, generate_requests, List.flatten_cons,
      List.length_append, List.map_cons, List.sum_cons]
    rw [length_sampleIndices,
      genTables_indices_flatten_length rngs B alpha w rest (i + 1) _,
      Nat.mul_add]

lemma map_getD_range_eq : ∀ (l : List Nat),
    (List.range l.length).map (fun i => l.getD i 0) = l
  | [] => rfl
  | x :: xs => by
    rw [List.length_cons, List.range_succ_eq_map, List.map_cons, List.map_map]
    rw [List.getD_cons_zero]
    congr 1
    rw [show ((fun i => (x :: xs).getD i 0) ∘ Nat.succ) =
      (fun i => xs.getD i 0) from funext (fun i => List.getD_cons_succ)]
    exact map_getD_range_eq xs

lemma get_data_generation (loadIdx loadOff : String → List Nat)
    (loadW : String → List ℚ) (rngs : Nat → Rng) (cfg : GetDataConfig)
    (env : Env) (h1 : cfg.indices_tensor = none)
    (h2 : env.split_embedding_indices = none) :
    get_data loadIdx loadOff loadW rngs cfg env =
      finalizeBatch cfg.weighted
        (genTables rngs cfg.batch_size (env.split_embedding_distribution.getD 1)
          cfg.weighted 0 0 (tableList cfg)).1.flatten
        (genTables rngs cfg.batch_size (env.split_embedding_distribution.getD 1)
          cfg.weighted 0 0 (tableList cfg)).2.1.flatten
        (if cfg.weighted then
          some (genTables rngs cfg.batch_size
            (env.split_embedding_distribution.getD 1)
            cfg.weighted 0 0 (tableList cfg)).2.2.flatten
         else none) := by
  unfold get_data resolveFiles tableList
  rw [h1, h2]
  simp

lemma genTables_offsets_flatten_start (rngs : Nat → Rng) (B : Nat) (alpha : ℚ)
    (w : Bool) (hB : 1 ≤ B) (tables : List (Nat × Nat)) (hne : tables ≠ [])
    (hT : ∀ p ∈ tables, 1 ≤ p.1) (i : Nat) :
    (genTables rngs B alpha w i 0 tables).2.1.flatten =
      0 :: cumsumFrom 0 (tables.flatMap (fun p => List.replicate B p.1)) := by
  cases tables with
  | nil => exact absurd rfl hne
  | cons p rest =>
    obtain ⟨L, E⟩ := p
    exact genTables_offsets_flatten_zero rngs B alpha w hB L E rest
      (hT (L, E) (List.mem_cons_self _ _))
      (fun q hq => hT q (List.mem_cons_of_mem _ hq)) i

lemma tableList_fst (cfg : GetDataConfig)
    (hlen : cfg.pooling_factors.length = cfg.num_tables) :
    (tableList cfg).map Prod.fst = cfg.pooling_factors := by
  unfold tableList
  rw [List.map_map]
  have : (Prod.fst ∘ fun i => (cfg.pooling_factors.getD i 0, cfg.rows.getD i 0))
      = fun i => cfg.pooling_factors.getD i 0 := rfl
  rw [this, ← hlen, map_getD_range_eq]

lemma tableList_fst_pos (cfg : GetDataConfig)
    (hlen : cfg.pooling_factors.length = cfg.num_tables)
    (hpf : ∀ x ∈ cfg.pooling_factors, 1 ≤ x) :
    ∀ p ∈ tableList cfg, 1 ≤ p.1 := by
  intro p hp
  unfold tableList at hp
  simp only [List.mem_map, List.mem_range] at hp
  obtain ⟨i, hi, rfl⟩ := hp
  have hi' : i < cfg.pooling_factors.length := by omega
  rw [List.getD_eq_getElem _ _ hi']
  exact hpf _ (List.getElem_mem hi')

/-! ## Claim theorems: the distribution sampler -/

/-- C1: for every `B, L, E ≥ 1` and position `i < B*L`, the sampler output has
length `B*L`; with `alpha = 0` its `i`-th entry is `i % L`; with
`0 < alpha ≤ 0.5` its `i`-th entry is `i % E`; and in both of those branches
the output does not depend on the random streams (two runs with equal
arguments produce equal sequences). -/
theorem C1_sampler_linear_branches (B L E : Nat) (hB : 1 ≤ B) (hL : 1 ≤ L)
    (hE : 1 ≤ E) (alpha : ℚ) (rng rng' : Rng) (i : Nat) (hi : i < B * L) :
    (sampleIndices rng B L E alpha).length = B * L ∧
    (alpha = 0 → (sampleIndices rng B L E alpha).getD i 0 = i % L) ∧
    (0 < alpha → alpha ≤ 1 / 2 →
      (sampleIndices rng B L E alpha).getD i 0 = i % E) ∧
    ((alpha = 0 ∨ (0 < alpha ∧ alpha ≤ 1 / 2)) →
      sampleIndices rng B L E alpha = sampleIndices rng' B L E alpha) := by
  refine ⟨length_sampleIndices rng B L E alpha, ?_, ?_, ?_⟩
  · intro h0
    unfold sampleIndices
    rw [if_pos h0]
    exact getD_map_range _ hi
  · intro hpos hhalf
    unfold sampleIndices
    rw [if_neg (ne_of_gt hpos), if_pos hhalf]
    exact getD_map_range _ hi
  · rintro (h0 | ⟨-, hhalf⟩)
    · exact sampleIndices_deterministic rng rng' B L E (by rw [h0]; norm_num)
    · exact sampleIndices_deterministic rng rng' B L E hhalf

/-- Witness for C1 at `B = 2`, `L = 3`, `E = 10`, `alpha = 0`, `i = 4`. -/
theorem C1_sampler_linear_branches_witness :
    (sampleIndices constRng 2 3 10 0).length = 2 * 3 ∧
    ((0 : ℚ) = 0 → (sampleIndices constRng 2 3 10 0).getD 4 0 = 4 % 3) ∧
    ((0 : ℚ) < 0 → (0 : ℚ) ≤ 1 / 2 →
      (sampleIndices constRng 2 3 10 0).getD 4 0 = 4 % 10) ∧
    (((0 : ℚ) = 0 ∨ ((0 : ℚ) < 0 ∧ (0 : ℚ) ≤ 1 / 2)) →
      sampleIndices constRng 2 3 10 0 = sampleIndices constRng 2 3 10 0) :=
  C1_sampler_linear_branches 2 3 10 (by norm_num) (by norm_num) (by norm_num)
    0 constRng constRng 4 (by norm_num)

/-- C6: for every `B, L, E ≥ 1`, the sampler output has length `B*L`, and in
both random branches (`0.5 < alpha ≤ 1.0`: uniform; `alpha > 1.0`: Zipfian
reduced modulo `E`) every element lies in `[0, E)`. -/
theorem C6_sampler_random_branches (B L E : Nat) (hB : 1 ≤ B) (hL : 1 ≤ L)
    (hE : 1 ≤ E) (alpha : ℚ) (rng : Rng) :
    (sampleIndices rng B L E alpha).length = B * L ∧
    (1 / 2 < alpha → alpha ≤ 1 → ∀ j ∈ sampleIndices rng B L E alpha, j < E) ∧
    (1 < alpha → ∀ j ∈ sampleIndices rng B L E alpha, j < E) := by
  refine ⟨length_sampleIndices rng B L E alpha, ?_, ?_⟩
  · intro hlo _ j hj
    have := sampleIndices_mem_lt rng alpha hL hE j hj
    rwa [if_neg (by intro h; rw [h] at hlo; norm_num at hlo)] at this
  · intro hlo j hj
    have := sampleIndices_mem_lt rng alpha hL hE j hj
    rwa [if_neg (by intro h; rw [h] at hlo; norm_num at hlo)] at this

/-- Witness for C6 at `B = 2`, `L = 3`, `E = 10`, `alpha = 1`. -/
theorem C6_sampler_random_branches_witness :
    (sampleIndices constRng 2 3 10 1).length = 2 * 3 ∧
    ((1 : ℚ) / 2 < 1 → (1 : ℚ) ≤ 1 →
      ∀ j ∈ sampleIndices constRng 2 3 10 1, j < 10) ∧
    ((1 : ℚ) < 1 → ∀ j ∈ sampleIndices constRng 2 3 10 1, j < 10) :=
  C6_sampler_random_branches 2 3 10 (by norm_num) (by norm_num) (by norm_num)
    1 constRng

/-! ## Claim theorems: the batch request builder -/

/-- C3: for every batch produced in generation mode (no override sources) with
`num_tables ≥ 1`, `batch_size ≥ 1` and per-table pooling factors `≥ 1`, the
concatenated offsets are non-decreasing, start at `0`, end at the length of
the concatenated indices (which is `batch_size * Σ pooling_factors`), and have
total length `num_tables * batch_size + 1`. -/
theorem C3_offsets_invariants (loadIdx loadOff : String → List Nat)
    (loadW : String → List ℚ) (rngs : Nat → Rng) (cfg : GetDataConfig)
    (env : Env) (hov1 : cfg.indices_tensor = none)
    (hov2 : env.split_embedding_indices = none) (hn : 1 ≤ cfg.num_tables)
    (hB : 1 ≤ cfg.batch_size)
    (hlen : cfg.pooling_factors.length = cfg.num_tables)
    (hpf : ∀ x ∈ cfg.pooling_factors, 1 ≤ x) (b : Batch)
    (hb : get_data loadIdx loadOff loadW rngs cfg env = Except.ok b) :
    List.Chain' (· ≤ ·) b.offsets ∧
    b.offsets.headD 1 = 0 ∧
    b.offsets.getLastD 1 = b.indices.length ∧
    b.indices.length = cfg.batch_size * cfg.pooling_factors.sum ∧
    b.offsets.length = cfg.num_tables * cfg.batch_size + 1 := by
  rw [get_data_generation loadIdx loadOff loadW rngs cfg env hov1 hov2] at hb
  have hT := tableList_fst_pos cfg hlen hpf
  have hTlen : (tableList cfg).length = cfg.num_tables := by
    unfold tableList; rw [List.length_map, List.length_range]
  have hTne : tableList cfg ≠ [] :=
    List.ne_nil_of_length_pos (by rw [hTlen]; omega)
  set alpha := env.split_embedding_distribution.getD 1 with halpha
  have hoff := genTables_offsets_flatten_start rngs cfg.batch_size alpha
    cfg.weighted hB (tableList cfg) hTne hT 0
  have hind := genTables_indices_flatten_length rngs cfg.batch_size alpha
    cfg.weighted (tableList cfg) 0 0
  have hLne : (tableList cfg).flatMap
      (fun p => List.replicate cfg.batch_size p.1) ≠ [] := by
    refine List.ne_nil_of_length_pos ?_
    rw [flatMap_replicate_length, hTlen]
    exact Nat.mul_le_mul hn hB
  have hbatch : b = ⟨(genTables rngs cfg.batch_size alpha cfg.weighted 0 0
      (tableList cfg)).1.flatten,
      (genTables rngs cfg.batch_size alpha cfg.weighted 0 0
        (tableList cfg)).2.1.flatten,
      if cfg.weighted then
        some (genTables rngs cfg.batch_size alpha cfg.weighted 0 0
          (tableList cfg)).2.2.flatten
      else none⟩ := by
    unfold finalizeBatch at hb
    cases hw : cfg.weighted <;> rw [hw] at hb <;> simp at hb <;>
      exact hb.symm
  subst hbatch
  refine ⟨?_, ?_, ?_, ?_, ?_⟩
  · show List.Chain' (· ≤ ·) _
    rw [hoff]
    exact chain'_cumsumFrom _ 0
  · show List.headD _ 1 = 0
    rw [hoff]
    rfl
  · show List.getLastD _ 1 = _
    rw [hoff, List.getLastD_cons, getLastD_cumsumFrom _ hLne 0 0]
    show 0 + _ = List.length _
    rw [hind, flatMap_replicate_sum, tableList_fst cfg hlen]
    omega
  · show List.length _ = _
    rw [hind, tableList_fst cfg hlen]
  · show List.length _ = _
    rw [hoff, List.length_cons, length_cumsumFrom, flatMap_replicate_length,
      hTlen]

/-- C2 (amended): in the generation loop, every index produced for table `k`
(with pooling factor `L_k = (tables.getD k _).1` and row count
`E_k = (tables.getD k _).2`, all `≥ 1`) lies in `[0, E_k)` whenever
`alpha ≠ 0`; when `alpha = 0` it lies in `[0, L_k)` instead (hence within
`[0, E_k)` only if `L_k ≤ E_k`). -/
theorem C2_index_bounds_amended (rngs : Nat → Rng) (B : Nat) (alpha : ℚ)
    (w : Bool) : ∀ (tables : List (Nat × Nat)) (i s k : Nat),
    (∀ p ∈ tables, 1 ≤ p.1 ∧ 1 ≤ p.2) → k < tables.length →
    ∀ j ∈ (genTables rngs B alpha w i s tables).1.getD k [],
      j < (if alpha = 0 then (tables.getD k (0, 0)).1
           else (tables.getD k (0, 0)).2) := by
  intro tables
  induction tables with
  | nil => intro i s k _ hk; simp at hk
  | cons p rest ih =>
    obtain ⟨L, E⟩ := p
    intro i s k hT hk j hj
    cases k with
    | zero =>
      simp only [genTables, generate_requests, List.getD_cons_zero] at hj ⊢
      have hLE := hT (L, E) (List.mem_cons_self _ _)
      exact sampleIndices_mem_lt (rngs i) alpha hLE.1 hLE.2 j hj
    | succ k' =>
      simp only [genTables, generate_requests, List.getD_cons_succ] at hj ⊢
      exact ih (i + 1) _ k' (fun q hq => hT q (List.mem_cons_of_mem _ hq))
        (by simpa using hk) j hj

/-- Witness for C3 on the two-table configuration `cfgGen` with `alpha = 0`. -/
theorem C3_offsets_invariants_witness :
    List.Chain' (· ≤ ·) ([0, 2, 4, 7, 10] : List Nat) ∧
    ([0, 2, 4, 7, 10] : List Nat).headD 1 = 0 ∧
    ([0, 2, 4, 7, 10] : List Nat).getLastD 1 =
      ([0, 1, 0, 1, 0, 1, 2, 0, 1, 2] : List Nat).length ∧
    ([0, 1, 0, 1, 0, 1, 2, 0, 1, 2] : List Nat).length =
      cfgGen.batch_size * cfgGen.pooling_factors.sum ∧
    ([0, 2, 4, 7, 10] : List Nat).length =
      cfgGen.num_tables * cfgGen.batch_size + 1 :=
  C3_offsets_invariants loadNilNat loadNilNat loadNilQ rngsConst cfgGen
    envAlphaZero rfl rfl (by decide) (by decide) (by decide)
    (by decide) ⟨[0, 1, 0, 1, 0, 1, 2, 0, 1, 2], [0, 2, 4, 7, 10], none⟩
    (by rfl)

/-- C2 as stated is false: with `alpha = 0`, `rows = [1]`, pooling factor `2`
and batch size `1`, the generated batch contains the index `1`, which is not
in `[0, rows_0) = [0, 1)`.  (The `alpha == 0` branch draws indices modulo the
pooling factor, not modulo the table size.) -/
theorem C2_index_bounds_counterexample :
    ¬ (∀ b : Batch,
        get_data loadNilNat loadNilNat loadNilQ rngsConst cfgTinyRows
          envAlphaZero = Except.ok b →
        ∀ j ∈ b.indices, j < cfgTinyRows.rows.getD 0 0) := by
  intro h
  have h1 := h ⟨[0, 1], [0, 2], none⟩ (by rfl) 1 (by decide)
  revert h1
  decide

/-- Witness for C2 (amended) at `tables = [(2, 5)]`, `alpha = 0`, `k = 0`,
`j = 1`. -/
theorem C2_index_bounds_amended_witness :
    (1 : Nat) < (if (0 : ℚ) = 0 then (([(2, 5)] : List (Nat × Nat)).getD 0 (0, 0)).1
                 else (([(2, 5)] : List (Nat × Nat)).getD 0 (0, 0)).2) :=
  C2_index_bounds_amended rngsConst 1 0 false [(2, 5)] 0 0 0 (by decide)
    (by decide) 1 (by decide)

lemma genTables_offsets_step (rngs : Nat → Rng) (B : Nat) (alpha : ℚ)
    (w : Bool) (hB : 1 ≤ B) : ∀ (tables : List (Nat × Nat)) (i s : Nat),
    1 ≤ s → ∀ k, k + 1 < tables.length →
    (genTables rngs B alpha w i s tables).2.1.getD (k + 1) [] =
      (cumsum (List.replicate B (tables.getD (k + 1) (0, 0)).1)).map
        (fun x =>
          ((genTables rngs B alpha w i s tables).2.1.getD k []).getLastD 0
            + x) := by
  intro tables
  induction tables with
  | nil => intro i s _ k hk; simp at hk
  | cons p rest ih =>
    obtain ⟨L, E⟩ := p
    intro i s hs k hk
    cases k with
    | zero =>
      cases rest with
      | nil => simp at hk
      | cons q rest' =>
        obtain ⟨L', E'⟩ := q
        simp only [genTables, generate_requests, List.getD_cons_succ,
          List.getD_cons_zero]
        rw [getLastD_sampleOffsets B L s hB 0]
        rw [sampleOffsets_pos B L' (show s + B * L ≠ 0 by omega)]
        unfold cumsum
        have := cumsumFrom_shift (s + B * L) (List.replicate B L') 0
        rw [Nat.add_zero] at this
        rw [this]
    | succ k' =>
      simp only [genTables, generate_requests, List.getD_cons_succ] at hk ⊢
      rw [getLastD_sampleOffsets B L s hB 0]
      exact ih (i + 1) (s + B * L) (by omega) k' (by simpa using hk)

/-- C4: in generation mode the first table is sampled with `offset_start = 0`
and its offset sequence is `0 :: cumsum(lengths)` (a prepended leading zero);
for every later table `k+1`, its offset sequence is `cumsum(lengths)` shifted
by exactly the last element of table `k`'s offset sequence — the
`offset_start` carried over. -/
theorem C4_offset_chaining (rngs : Nat → Rng) (B : Nat) (alpha : ℚ) (w : Bool)
    (L0 E0 : Nat) (rest : List (Nat × Nat)) (hB : 1 ≤ B) (hL0 : 1 ≤ L0) :
    (genTables rngs B alpha w 0 0 ((L0, E0) :: rest)).2.1.getD 0 [] =
      0 :: cumsum (List.replicate B L0) ∧
    ∀ k, k + 1 < ((L0, E0) :: rest).length →
      (genTables rngs B alpha w 0 0 ((L0, E0) :: rest)).2.1.getD (k + 1) [] =
        (cumsum (List.replicate B
          (((L0, E0) :: rest).getD (k + 1) (0, 0)).1)).map
          (fun x => ((genTables rngs B alpha w 0 0
            ((L0, E0) :: rest)).2.1.getD k []).getLastD 0 + x) := by
  have hBL : 1 ≤ B * L0 := Nat.mul_le_mul hB hL0
  constructor
  · simp only [genTables, generate_requests, List.getD_cons_zero]
    rw [sampleOffsets_zero]
    rfl
  · intro k hk
    cases k with
    | zero =>
      cases rest with
      | nil => simp at hk
      | cons q rest' =>
        obtain ⟨L', E'⟩ := q
        simp only [genTables, generate_requests, List.getD_cons_succ,
          List.getD_cons_zero]
        rw [getLastD_sampleOffsets B L0 0 hB 0]
        rw [sampleOffsets_pos B L' (show 0 + B * L0 ≠ 0 by omega)]
        unfold cumsum
        have := cumsumFrom_shift (0 + B * L0) (List.replicate B L') 0
        rw [Nat.add_zero] at this
        rw [this]
    | succ k' =>
      simp only [genTables, generate_requests, List.getD_cons_succ] at hk ⊢
      rw [getLastD_sampleOffsets B L0 0 hB 0]
      exact genTables_offsets_step rngs B alpha w hB rest 1 (0 + B * L0)
        (by omega) k' (by simpa using hk)

/-- Witness for C4 at `B = 2`, `tables = [(2, 5), (3, 7)]`, `alpha = 0`. -/
theorem C4_offset_chaining_witness :
    (genTables rngsConst 2 0 false 0 0 [(2, 5), (3, 7)]).2.1.getD 0 [] =
      0 :: cumsum (List.replicate 2 2) ∧
    (genTables rngsConst 2 0 false 0 0 [(2, 5), (3, 7)]).2.1.getD 1 [] =
      (cumsum (List.replicate 2
        (([(2, 5), (3, 7)] : List (Nat × Nat)).getD 1 (0, 0)).1)).map
        (fun x => ((genTables rngsConst 2 0 false 0 0
          [(2, 5), (3, 7)]).2.1.getD 0 []).getLastD 0 + x) :=
  ⟨(C4_offset_chaining rngsConst 2 0 false 2 5 [(3, 7)] (by decide)
      (by decide)).1,
    (C4_offset_chaining rngsConst 2 0 false 2 5 [(3, 7)] (by decide)
      (by decide)).2 0 (by decide)⟩

lemma genTables_weights_flatten_length (rngs : Nat → Rng) (B : Nat)
    (alpha : ℚ) : ∀ (tables : List (Nat × Nat)) (i s : Nat),
    (genTables rngs B alpha true i s tables).2.2.flatten.length =
      (genTables rngs B alpha true i s tables).1.flatten.length
  | [], _, _ => rfl
  | (L, E) :: rest, i, s => by
    simp only [genTables, generate_requests, sampleWeights, if_pos,
      List.flatten_cons, List.length_append]
    rw [length_sampleIndices]
    simp only [Option.getD_some, List.length_map, List.length_range]
    rw [genTables_weights_flatten_length rngs B alpha rest (i + 1) _]

lemma genTables_weights_indep (rngs : Nat → Rng) (B : Nat) (w : Bool) :
    ∀ (tables : List (Nat × Nat)) (i s s' : Nat) (alpha alpha' : ℚ),
    (genTables rngs B alpha w i s tables).2.2 =
      (genTables rngs B alpha' w i s' tables).2.2
  | [], _, _, _, _, _ => rfl
  | (L, E) :: rest, i, s, s', alpha, alpha' => by
    simp only [genTables, generate_requests]
    rw [genTables_weights_indep rngs B w rest (i + 1) _ _ alpha alpha']


lemma get_data_generation_ok (loadIdx loadOff : String → List Nat)
    (loadW : String → List ℚ) (rngs : Nat → Rng) (cfg : GetDataConfig)
    (env : Env) (h1 : cfg.indices_tensor = none)
    (h2 : env.split_embedding_indices = none) :
    get_data loadIdx loadOff loadW rngs cfg env =
      Except.ok
        ⟨(genTables rngs cfg.batch_size
            (env.split_embedding_distribution.getD 1) cfg.weighted 0 0
            (tableList cfg)).1.flatten,
          (genTables rngs cfg.batch_size
            (env.split_embedding_distribution.getD 1) cfg.weighted 0 0
            (tableList cfg)).2.1.flatten,
          if cfg.weighted then
            some (genTables rngs cfg.batch_size
              (env.split_embedding_distribution.getD 1) cfg.weighted 0 0
              (tableList cfg)).2.2.flatten
          else none⟩ := by
  rw [get_data_generation loadIdx loadOff loadW rngs cfg env h1 h2]
  cases hw : cfg.weighted <;> rfl

/-- C7: for every batch produced in generation mode, if `weighted` the weights
sequence is present with one entry per index
(`len(weights) == len(indices)`), and its value is independent of the skew
distribution (any `split_embedding_distribution` value yields the same
weights); if not `weighted` the weights component is `None`. -/
theorem C7_weights_presence (loadIdx loadOff : String → List Nat)
    (loadW : String → List ℚ) (rngs : Nat → Rng) (cfg : GetDataConfig)
    (env : Env) (hov1 : cfg.indices_tensor = none)
    (hov2 : env.split_embedding_indices = none) (b : Batch)
    (hb : get_data loadIdx loadOff loadW rngs cfg env = Except.ok b) :
    (cfg.weighted = true →
      ∃ w, b.weights = some w ∧ w.length = b.indices.length) ∧
    (cfg.weighted = false → b.weights = none) ∧
    (∀ (d' : Option ℚ) (b' : Batch),
      get_data loadIdx loadOff loadW rngs cfg
        ⟨d', env.split_embedding_indices, env.split_embedding_offsets,
          env.split_embedding_weights⟩ = Except.ok b' →
      b'.weights = b.weights) := by
  rw [get_data_generation_ok loadIdx loadOff loadW rngs cfg env hov1 hov2]
    at hb
  have hbe := (Except.ok.inj hb).symm
  subst hbe
  refine ⟨?_, ?_, ?_⟩
  · intro hw
    rw [hw]
    exact ⟨_, rfl,
      genTables_weights_flatten_length rngs cfg.batch_size
        (env.split_embedding_distribution.getD 1) (tableList cfg) 0 0⟩
  · intro hw
    rw [hw]
    rfl
  · intro d' b' hb'
    rw [get_data_generation_ok loadIdx loadOff loadW rngs cfg
      ⟨d', env.split_embedding_indices, env.split_embedding_offsets,
        env.split_embedding_weights⟩ hov1 hov2] at hb'
    have hbe' := (Except.ok.inj hb').symm
    subst hbe'
    show (if cfg.weighted then _ else none) = (if cfg.weighted then _ else none)
    cases hw : cfg.weighted
    · rfl
    · simp only [if_true]
      rw [genTables_weights_indep rngs cfg.batch_size true (tableList cfg) 0
        0 0 (Option.getD d' 1) (env.split_embedding_distribution.getD 1)]

lemma finalizeBatch_false (i o : List Nat) (w : Option (List ℚ)) :
    finalizeBatch false i o w = Except.ok ⟨i, o, none⟩ := rfl

lemma finalizeBatch_true_none (i o : List Nat) :
    finalizeBatch true i o none =
      Except.error "AttributeError: NoneType has no attribute to" := rfl

/-- C8: whenever both an indices source and an offsets source resolve (from
the axis-4 config overrides or the environment fallback), `get_data` takes
the override branch: its result is independent of the random streams (the
generation-mode sampler is never invoked), and the returned batch carries a
weights tensor only when `weighted` holds and a weights source is present
(non-empty path). -/
theorem C8_override_no_sampling (loadIdx loadOff : String → List Nat)
    (loadW : String → List ℚ) (cfg : GetDataConfig) (env : Env)
    (hI : (resolveFiles cfg env).1.isSome = true)
    (hO : (resolveFiles cfg env).2.1.isSome = true) (rngs rngs' : Nat → Rng) :
    get_data loadIdx loadOff loadW rngs cfg env =
      get_data loadIdx loadOff loadW rngs' cfg env ∧
    (∀ b, get_data loadIdx loadOff loadW rngs cfg env = Except.ok b →
      b.weights.isSome = true →
      cfg.weighted = true ∧
        pathTruthy (resolveFiles cfg env).2.2 = true) := by
  have hcond : ((resolveFiles cfg env).1.isSome &&
      (resolveFiles cfg env).2.1.isSome) = true := by rw [hI, hO]; rfl
  constructor
  · simp only [get_data, hcond, if_true]
  · intro b hb hbw
    simp only [get_data, hcond, if_true] at hb
    cases hw : cfg.weighted
    · rw [hw, finalizeBatch_false] at hb
      rw [← Except.ok.inj hb] at hbw
      simp at hbw
    · cases ht : pathTruthy (resolveFiles cfg env).2.2
      · rw [hw, ht] at hb
        rw [if_neg (by simp), finalizeBatch_true_none] at hb
        exact absurd hb (by simp)
      · exact ⟨rfl, rfl⟩

/-- Witness for C8 on `cfgOverride` (both axis-4 paths set, unweighted). -/
theorem C8_override_no_sampling_witness :
    get_data loadNilNat loadNilNat loadNilQ rngsConst cfgOverride envNone =
      get_data loadNilNat loadNilNat loadNilQ
        (fun _ => ⟨fun i => i, fun i => i, fun _ => 1⟩) cfgOverride envNone ∧
    (∀ b, get_data loadNilNat loadNilNat loadNilQ rngsConst cfgOverride
        envNone = Except.ok b →
      b.weights.isSome = true →
      cfgOverride.weighted = true ∧
        pathTruthy (resolveFiles cfgOverride envNone).2.2 = true) :=
  C8_override_no_sampling loadNilNat loadNilNat loadNilQ cfgOverride envNone
    (by rfl) (by rfl) rngsConst (fun _ => ⟨fun i => i, fun i => i, fun _ => 1⟩)

/-- C10: in override mode with `weighted = True` but no weights source,
`get_data` raises (`AttributeError` from `None.to(device)`) instead of
returning a batch with `weights = None`. -/
theorem C10_override_weighted_missing_source (loadIdx loadOff :
      String → List Nat) (loadW : String → List ℚ) (rngs : Nat → Rng)
    (cfg : GetDataConfig) (env : Env)
    (hI : (resolveFiles cfg env).1.isSome = true)
    (hO : (resolveFiles cfg env).2.1.isSome = true)
    (hw : cfg.weighted = true)
    (ht : pathTruthy (resolveFiles cfg env).2.2 = false) :
    get_data loadIdx loadOff loadW rngs cfg env =
      Except.error "AttributeError: NoneType has no attribute to" := by
  have hcond : ((resolveFiles cfg env).1.isSome &&
      (resolveFiles cfg env).2.1.isSome) = true := by rw [hI, hO]; rfl
  simp only [get_data, hcond, if_true]
  rw [hw, ht, if_neg (by simp), finalizeBatch_true_none]

/-- Witness for C10 on `cfgOverrideW` (override paths set, weighted, no
weights path). -/
theorem C10_override_weighted_missing_source_witness :
    get_data loadNilNat loadNilNat loadNilQ rngsConst cfgOverrideW envNone =
      Except.error "AttributeError: NoneType has no attribute to" :=
  C10_override_weighted_missing_source loadNilNat loadNilNat loadNilQ
    rngsConst cfgOverrideW envNone (by rfl) (by rfl) (by rfl) (by rfl)

/-- Witness for C7 on the weighted two-table configuration `cfgGenW` with
`alpha = 0`. -/
theorem C7_weights_presence_witness :
    (cfgGenW.weighted = true →
      ∃ w, batchGenW.weights = some w ∧ w.length = batchGenW.indices.length) ∧
    (cfgGenW.weighted = false → batchGenW.weights = none) ∧
    (∀ (d' : Option ℚ) (b' : Batch),
      get_data loadNilNat loadNilNat loadNilQ rngsConst cfgGenW
        ⟨d', envAlphaZero.split_embedding_indices,
          envAlphaZero.split_embedding_offsets,
          envAlphaZero.split_embedding_weights⟩ = Except.ok b' →
      b'.weights = batchGenW.weights) :=
  C7_weights_presence loadNilNat loadNilNat loadNilQ rngsConst cfgGenW
    envAlphaZero rfl rfl batchGenW (by rfl)

/-! ## Claim theorems: operator build and input iterator -/

/-- C9: for every device string that starts with neither `"cpu"` nor
`"cuda"`, `build` leaves the previous operator handle in place and fails with
a `ValueError` whose message names the unsupported device string; the outcome
is independent of the external operator constructor, which is never invoked. -/
theorem C9_build_unknown_device (device : String)
    (h1 : strStartsWith device "cpu" = false)
    (h2 : strStartsWith device "cuda" = false)
    (mkOp mkOp' : List (Nat × Nat × Nat × ComputeDevice) → String → Nat →
      String → EmbeddingOpHandle)
    (st : Option EmbeddingOpHandle) (num_tables : Nat) (rows dims : List Nat)
    (location pooling : Nat) (wp opt : String) :
    buildOp mkOp st device num_tables rows dims location pooling wp opt =
      (st, Except.error ("Unknown compute device " ++ device)) ∧
    buildOp mkOp st device num_tables rows dims location pooling wp opt =
      buildOp mkOp' st device num_tables rows dims location pooling wp opt := by
  have hdev : computeDeviceOf device = none := by
    unfold computeDeviceOf
    rw [h1, h2]
    rfl
  unfold buildOp
  rw [hdev]
  exact ⟨rfl, rfl⟩

/-- Witness for C9 at `device = "xpu:0"`. -/
theorem C9_build_unknown_device_witness :
    buildOp mkOpDemo none "xpu:0" 1 [10] [4] 0 0 "fp32" "exact_sgd" =
      (none, Except.error ("Unknown compute device " ++ "xpu:0")) ∧
    buildOp mkOpDemo none "xpu:0" 1 [10] [4] 0 0 "fp32" "exact_sgd" =
      buildOp (fun _ _ _ _ => ⟨[], "", 0, ""⟩) none "xpu:0" 1 [10] [4] 0 0
        "fp32" "exact_sgd" :=
  C9_build_unknown_device "xpu:0" (by decide) (by decide) mkOpDemo
    (fun _ _ _ _ => ⟨[], "", 0, ""⟩) none 1 [10] [4] 0 0 "fp32" "exact_sgd"

/-- C5 fails on the code: `_generator` initialises `var_id = 0` (line 63) and
never increments it, so every declared-input group is labelled `0`.  A single
group does yield distinct identifiers in product-expansion order (the
`{32,64} x {4,8}` example gives exactly `0_0 .. 0_3`), but a configuration
with two input groups yields the identifier `0_0` twice — contradicting both
the `var_id = group index` labelling and pairwise distinctness. -/
theorem C5_iterator_identifiers_code_bug :
    ((iteratorItems iterDemoBuild
        [[AxisSpec.listSpec [32, 64], AxisSpec.listSpec [4, 8]]]).map
      Prod.fst = ["0_0", "0_1", "0_2", "0_3"]) ∧
    ((iteratorItems iterDemoBuild
        [[AxisSpec.lit 32, AxisSpec.lit 4],
         [AxisSpec.lit 64, AxisSpec.lit 8]]).map Prod.fst = ["0_0", "0_0"]) ∧
    ¬ ((iteratorItems iterDemoBuild
        [[AxisSpec.lit 32, AxisSpec.lit 4],
         [AxisSpec.lit 64, AxisSpec.lit 8]]).map Prod.fst).Nodup := by
  refine ⟨by decide, by decide, by decide⟩
